import Mathlib

/-!
Shallow embedding of the resume-parsing core of `resume_parser.py`
(class `ResumeParser`): contact extraction, skills matching,
experience/education segmentation and experience-year aggregation.
Strings are modelled as `List Char`; Python's `re` module is modelled by a
small backtracking matcher over a pattern AST (`RE`) producing results in
Python's leftmost / greedy / left-alternative priority order.
The external NLTK sentence tokenizer is not part of the repository and is
modelled as an arbitrary function parameter `tok : String → List String`.
-/

set_option maxRecDepth 20000

/-- Python whitespace class `\s` (ASCII model): space, tab, LF, CR, VT, FF. -/
def isSpaceChar (c : Char) : Bool :=
  c = ' ' || c = '\t' || c = '\n' || c = '\r' || c = Char.ofNat 11 || c = Char.ofNat 12

/-- Python `str.strip()`: drop leading and trailing whitespace. -/
def pyStrip (s : List Char) : List Char :=
  ((s.dropWhile isSpaceChar).reverse.dropWhile isSpaceChar).reverse

/-- Python `str.lower()` (ASCII model). -/
def lowerStr (s : List Char) : List Char :=
  s.map Char.toLower

/-- Python `text.split('\n')` (keeps empty pieces). -/
def splitNl : List Char → List (List Char)
  | [] => [[]]
  | c :: rest =>
    if c = '\n' then [] :: splitNl rest
    else
      match splitNl rest with
      | [] => [[c]]
      | l :: ls => (c :: l) :: ls

/-- Helper for `pyWords`: accumulates the current word (reversed). -/
def pyWordsAux : List Char → List Char → List (List Char)
  | [], acc => if acc.isEmpty then [] else [acc.reverse]
  | c :: rest, acc =>
    if isSpaceChar c then
      if acc.isEmpty then pyWordsAux rest [] else acc.reverse :: pyWordsAux rest []
    else pyWordsAux rest (c :: acc)

/-- Python `str.split()` with no argument: whitespace-separated words. -/
def pyWords (s : List Char) : List (List Char) :=
  pyWordsAux s []

/-- Does `hay` start with `needle`? -/
def startsWith : List Char → List Char → Bool
  | [], _ => true
  | _ :: _, [] => false
  | a :: as, b :: bs => a = b && startsWith as bs

/-- Python's `needle in hay` on strings: contiguous-substring test. -/
def isSubstr : List Char → List Char → Bool
  | n, [] => startsWith n []
  | n, h :: t => startsWith n (h :: t) || isSubstr n t

/-- Numeric value of a digit string (most significant first). -/
def digitsVal (l : List Char) : Nat :=
  l.foldl (fun a c => a * 10 + (c.toNat - '0'.toNat)) 0

/-- Value of a nonempty all-digit string, else `none`. -/
def digitsValOpt (l : List Char) : Option Nat :=
  if l.isEmpty then none
  else if l.all Char.isDigit then some (digitsVal l) else none

/-- Python `int(s)` on a string (ASCII model): optional surrounding
whitespace, optional sign, then decimal digits; `none` models `ValueError`. -/
def pyIntOfStr (s : List Char) : Option Int :=
  match pyStrip s with
  | [] => none
  | c :: rest =>
    if c = '+' then (digitsValOpt rest).map (fun n => (n : Int))
    else if c = '-' then (digitsValOpt rest).map (fun n => -(n : Int))
    else (digitsValOpt (c :: rest)).map (fun n => (n : Int))

/-- Python `str.isdigit()` (ASCII model). -/
def pyIsdigitStr (s : List Char) : Bool :=
  !s.isEmpty && s.all Char.isDigit

/-- Python `\w` word character (ASCII model), used for `\b`. -/
def isWordChar (c : Char) : Bool :=
  c.isAlphanum || c = '_'

/-- Regex pattern AST covering the constructs used by `resume_parser.py`:
character classes, concatenation, alternation, greedy option, greedy
counted repetition of a character class, capture groups and `\b`. -/
inductive RE where
  | eps : RE
  | cls : (Char → Bool) → RE
  | seq : RE → RE → RE
  | alt : RE → RE → RE
  | opt : RE → RE
  | rep : (Char → Bool) → Nat → Option Nat → RE
  | grp : Nat → RE → RE
  | wb : RE

/-- Capture list: `(group index, start, end)`, most recent first. -/
abbrev Caps := List (Nat × Nat × Nat)

/-- End positions reachable by a greedy counted repetition of a character
class starting at `i`, longest first. -/
def repEnds (s : List Char) (p : Char → Bool) (lo : Nat) (hi : Option Nat) (i : Nat) : List Nat :=
  let maxLen := ((s.drop i).takeWhile p).length
  let m := match hi with
    | some h => min maxLen h
    | none => maxLen
  if m < lo then []
  else (List.range (m + 1 - lo)).map (fun k => i + (m - k))

/-- Is position `i` a `\b` word boundary of `s`? -/
def isBoundary (s : List Char) (i : Nat) : Bool :=
  let before := match i, s with
    | 0, _ => false
    | j + 1, _ => match s.get? j with
      | some c => isWordChar c
      | none => false
  let after := match s.get? i with
    | some c => isWordChar c
    | none => false
  before != after

/-- All ways a pattern can match starting at position `i`, as
`(end position, captures)` pairs in Python's backtracking priority order
(greedy repetitions longest first, left alternative first). -/
def reRun (s : List Char) : RE → Nat → Caps → List (Nat × Caps)
  | .eps, i, g => [(i, g)]
  | .cls p, i, g =>
    match s.get? i with
    | some c => if p c then [(i + 1, g)] else []
    | none => []
  | .seq a b, i, g => (reRun s a i g).flatMap (fun r => reRun s b r.1 r.2)
  | .alt a b, i, g => reRun s a i g ++ reRun s b i g
  | .opt a, i, g => reRun s a i g ++ [(i, g)]
  | .rep p lo hi, i, g => (repEnds s p lo hi i).map (fun j => (j, g))
  | .grp n a, i, g => (reRun s a i g).map (fun r => (r.1, (n, i, r.1) :: r.2))
  | .wb, i, g => if isBoundary s i then [(i, g)] else []

/-- Highest-priority match of `re` anchored at position `i`. -/
def matchAt (re : RE) (s : List Char) (i : Nat) : Option (Nat × Caps) :=
  (reRun s re i []).head?

/-- Scan for the leftmost match from position `i` (fuelled loop over start
positions, including the end-of-string position). -/
def reSearchAux (re : RE) (s : List Char) : Nat → Nat → Option (Nat × Nat × Caps)
  | 0, _ => none
  | fuel + 1, i =>
    match matchAt re s i with
    | some (e, g) => some (i, e, g)
    | none => if s.length ≤ i then none else reSearchAux re s fuel (i + 1)

/-- Python slice `s[a:b]`. -/
def sliceList (s : List Char) (a b : Nat) : List Char :=
  (s.take b).drop a

/-- Python `re.search(pattern, s)` returning the full matched text. -/
def reSearch (re : RE) (s : List Char) : Option (List Char) :=
  (reSearchAux re s (s.length + 1) 0).map (fun r => sliceList s r.1 r.2.1)

/-- Python `re.findall`: successive non-overlapping leftmost matches,
as `(start, end, captures)`; an empty match advances the scan by one. -/
def reFindallAux (re : RE) (s : List Char) : Nat → Nat → List (Nat × Nat × Caps)
  | 0, _ => []
  | fuel + 1, i =>
    match reSearchAux re s (s.length + 1 - i) i with
    | none => []
    | some (st, en, g) =>
      (st, en, g) :: reFindallAux re s fuel (if st < en then en else st + 1)

/-- Span captured by group `n` (most recent win). -/
def capLookup (g : Caps) (n : Nat) : Option (Nat × Nat) :=
  (g.find? (fun x => x.1 = n)).map (fun x => x.2)

/-- Text of group `n`; a non-participating group yields `""` as in
Python `findall`. -/
def groupStr (s : List Char) (g : Caps) (n : Nat) : List Char :=
  match capLookup g n with
  | some (a, b) => sliceList s a b
  | none => []

/-- `re.findall` for a two-group pattern: list of `(group1, group2)`. -/
def findall2 (re : RE) (s : List Char) : List (List Char × List Char) :=
  (reFindallAux re s (s.length + 1) 0).map (fun r => (groupStr s r.2.2 1, groupStr s r.2.2 2))

/-- `re.findall` for a groupless pattern: list of full match texts. -/
def findallFull (re : RE) (s : List Char) : List (List Char) :=
  (reFindallAux re s (s.length + 1) 0).map (fun r => sliceList s r.1 r.2.1)

/-- Single literal character. -/
def chr (c : Char) : RE :=
  .cls (fun x => x = c)

/-- Single literal character, case-insensitive (`re.IGNORECASE`). -/
def chrI (c : Char) : RE :=
  .cls (fun x => x.toLower = c)

/-- Case-insensitive literal word. -/
def strI (w : String) : RE :=
  w.data.foldr (fun c r => .seq (chrI c) r) .eps

/-! ### Concrete patterns of `resume_parser.py` -/

/-- `[A-Za-z0-9._%+-]` (email local part). -/
def emailLocalChar (c : Char) : Bool :=
  c.isAlpha || c.isDigit || c = '.' || c = '_' || c = '%' || c = '+' || c = '-'

/-- `[A-Za-z0-9.-]` (email domain). -/
def emailDomChar (c : Char) : Bool :=
  c.isAlpha || c.isDigit || c = '.' || c = '-'

/-- `[A-Z|a-z]` (email TLD; the `|` inside the class is a literal). -/
def emailTldChar (c : Char) : Bool :=
  ('A' ≤ c && c ≤ 'Z') || c = '|' || ('a' ≤ c && c ≤ 'z')

/-- `\b[A-Za-z0-9._%+-]+@[A-Za-z0-9.-]+\.[A-Z|a-z]{2,}\b`. -/
def email_pattern : RE :=
  .seq .wb (.seq (.rep emailLocalChar 1 none)
    (.seq (chr '@') (.seq (.rep emailDomChar 1 none)
      (.seq (chr '.') (.seq (.rep emailTldChar 2 none) .wb)))))

/-- `[-.\s]` separator class of the phone pattern. -/
def sepChar (c : Char) : Bool :=
  c = '-' || c = '.' || isSpaceChar c

/-- `(\+?\d{1,3}[-.\s]?)?\(?\d{3}\)?[-.\s]?\d{3}[-.\s]?\d{4}`. -/
def phone_pattern : RE :=
  .seq (.opt (.grp 1 (.seq (.opt (chr '+'))
        (.seq (.rep Char.isDigit 1 (some 3)) (.opt (.cls sepChar))))))
    (.seq (.opt (chr '(')) (.seq (.rep Char.isDigit 3 (some 3))
      (.seq (.opt (chr ')')) (.seq (.opt (.cls sepChar))
        (.seq (.rep Char.isDigit 3 (some 3))
          (.seq (.opt (.cls sepChar)) (.rep Char.isDigit 4 (some 4))))))))

/-- `\s*` -/
def ws0 : RE :=
  .rep isSpaceChar 0 none

/-- `[-–]` (hyphen or en dash). -/
def dashCls : RE :=
  .cls (fun c => c = '-' || c = '–')

/-- `\d{4}` -/
def year4 : RE :=
  .rep Char.isDigit 4 (some 4)

/-- `(\d{4})\s*[-–]\s*(\d{4}|present|current)` with `re.IGNORECASE`. -/
def expPattern1 : RE :=
  .seq (.grp 1 year4) (.seq ws0 (.seq dashCls (.seq ws0
    (.grp 2 (.alt year4 (.alt (strI "present") (strI "current")))))))

/-- `\d{1,2}/\d{4}` -/
def monthYear : RE :=
  .seq (.rep Char.isDigit 1 (some 2)) (.seq (chr '/') year4)

/-- `(\d{1,2}/\d{4})\s*[-–]\s*(\d{1,2}/\d{4}|present|current)` with
`re.IGNORECASE`. -/
def expPattern2 : RE :=
  .seq (.grp 1 monthYear) (.seq ws0 (.seq dashCls (.seq ws0
    (.grp 2 (.alt monthYear (.alt (strI "present") (strI "current")))))))

/-- `experience_patterns` list of `extract_experience`, in source order. -/
def experience_patterns : List RE :=
  [expPattern1, expPattern2]

/-! ### Data model and extractors -/

/-- `self.tech_skills` of `ResumeParser.__init__`. -/
def tech_skills : List String :=
  ["python", "java", "javascript", "react", "node.js", "sql", "mongodb",
   "postgresql", "mysql", "html", "css", "git", "docker", "kubernetes",
   "aws", "azure", "machine learning", "deep learning", "tensorflow",
   "pytorch", "scikit-learn", "pandas", "numpy", "fastapi", "django",
   "flask", "spring boot", "microservices", "rest api", "graphql"]

/-- `self.education_keywords` of `ResumeParser.__init__`. -/
def education_keywords : List String :=
  ["bachelor", "master", "phd", "degree", "university", "college",
   "education", "graduation", "b.tech", "m.tech", "mba", "b.sc", "m.sc"]

/-- The keyword stop-list of the name heuristic. -/
def name_keywords : List String :=
  ["resume", "cv", "curriculum"]

/-- Result record of `extract_contact_info`. -/
structure ContactInfo where
  name : Option String
  email : Option String
  phone : Option String
deriving DecidableEq

/-- One experience entry `{period, description}`. -/
structure ExpEntry where
  period : String
  description : String
deriving DecidableEq

/-- One education entry `{description}`. -/
structure EduEntry where
  description : String
deriving DecidableEq

/-- Result record of `parse_resume`. -/
structure ParsedResume where
  contact_info : ContactInfo
  skills : List String
  experience : List ExpEntry
  education : List EduEntry
  experience_years : Int
deriving DecidableEq

/-- The name-scanning loop of `extract_contact_info`: strip each line, test
the two nested `if` conditions, keep the first hit (the loop `continue`s
when either condition fails). -/
def nameLoop : List (List Char) → Option (List Char)
  | [] => none
  | l :: ls =>
    let line := pyStrip l
    if !line.isEmpty && decide ((pyWords line).length ≤ 4)
        && !(line.any Char.isDigit) then
      if !(line.contains '@')
          && !(name_keywords.any (fun k => isSubstr k.data (lowerStr line))) then
        some line
      else nameLoop ls
    else nameLoop ls

/-- `ResumeParser.extract_contact_info`. -/
def extract_contact_info (text : String) : ContactInfo :=
  { email := (reSearch email_pattern text.data).map String.mk
    phone := (reSearch phone_pattern text.data).map String.mk
    name := (nameLoop ((splitNl text.data).take 5)).map String.mk }

/-- `ResumeParser.extract_skills`; Python's final `list(set(found_skills))`
is modelled as `List.dedup` on the accumulated list (membership-preserving
deduplication; Python leaves the order unspecified). -/
def extract_skills (text : String) : List String :=
  (tech_skills.foldl (fun found_skills skill =>
    if isSubstr (lowerStr skill.data) (lowerStr text.data) then
      found_skills ++ [skill]
    else found_skills) []).dedup

/-- `ResumeParser.extract_experience`, parameterised by the external NLTK
`sent_tokenize` (not part of this repository). -/
def extract_experience (tok : String → List String) (text : String) : List ExpEntry :=
  (tok text).foldl (fun experience sentence =>
    experience_patterns.foldl (fun experience pattern =>
      (findall2 pattern sentence.data).foldl (fun experience m =>
        experience ++ [{ period := String.mk (m.1 ++ (" - ").data ++ m.2)
                         description := String.mk (pyStrip sentence.data) }])
        experience)
      experience) []

/-- `ResumeParser.extract_education`, parameterised by the external NLTK
`sent_tokenize`. -/
def extract_education (tok : String → List String) (text : String) : List EduEntry :=
  (tok text).foldl (fun education sentence =>
    if education_keywords.any (fun k => isSubstr k.data (lowerStr sentence.data)) then
      education ++ [{ description := String.mk (pyStrip sentence.data) }]
    else education) []

/-- `ResumeParser.calculate_experience_years`: per entry, find the `\d{4}`
substrings of the period; with at least two, add `end - start` where the
end falls back to `2024` for a non-digit second token; `int()` failure
(`except: continue`) leaves the total unchanged. -/
def calculate_experience_years (experience : List ExpEntry) : Int :=
  experience.foldl (fun total_years exp =>
    match findallFull year4 exp.period.data with
    | years0 :: years1 :: _ =>
      match pyIntOfStr years0,
            (if pyIsdigitStr years1 then pyIntOfStr years1 else some 2024) with
      | some start_year, some end_year => total_years + (end_year - start_year)
      | _, _ => total_years
    | _ => total_years) 0

/-- `ResumeParser.parse_resume`. -/
def parse_resume (tok : String → List String) (text : String) : ParsedResume :=
  { contact_info := extract_contact_info text
    skills := extract_skills text
    experience := extract_experience tok text
    education := extract_education tok text
    experience_years := calculate_experience_years (extract_experience tok text) }

/-! ### Spec-side formulations (from the specification's wording) -/

/-- Spec wording for the name heuristic: the candidate line, after
trimming, is non-empty, has at most 4 words, no digit, no `@`, and no
case-insensitive occurrence of "resume" / "cv" / "curriculum". -/
def specNameOk (line : List Char) : Bool :=
  (!line.isEmpty && decide ((pyWords line).length ≤ 4) && !(line.any Char.isDigit))
    && (!(line.contains '@')
        && !(name_keywords.any (fun k => isSubstr k.data (lowerStr line))))

/-- Spec wording: the first of the first 5 trimmed lines passing the
heuristic, else null. -/
def spec_name (text : String) : Option String :=
  ((((splitNl text.data).take 5).map pyStrip).find? specNameOk).map String.mk

/-- Spec wording for the experience extractor: per sentence in order, per
pattern in order (year-year first), one entry per match with period
`"<g1> - <g2>"` and the trimmed sentence as shared description. -/
def spec_experience (sents : List String) : List ExpEntry :=
  sents.flatMap (fun sentence =>
    experience_patterns.flatMap (fun pattern =>
      (findall2 pattern sentence.data).map (fun m =>
        { period := String.mk (m.1 ++ (" - ").data ++ m.2)
          description := String.mk (pyStrip sentence.data) })))

/-- Spec wording for the education extractor: one entry per sentence (in
source order) whose lowercased text contains an education keyword. -/
def spec_education (sents : List String) : List EduEntry :=
  (sents.filter (fun s =>
    education_keywords.any (fun k => isSubstr k.data (lowerStr s.data)))).map
    (fun s => { description := String.mk (pyStrip s.data) })

/-- Spec wording for one entry's contribution to the experience total:
second 4-digit year minus first when at least two are present, else zero. -/
def spec_entry_contribution (period : List Char) : Int :=
  match findallFull year4 period with
  | y0 :: y1 :: _ => (digitsVal y1 : Int) - (digitsVal y0 : Int)
  | _ => 0

/-- Spec wording for the aggregate: the sum of per-entry contributions. -/
def spec_experience_years (experience : List ExpEntry) : Int :=
  (experience.map (fun e => spec_entry_contribution e.period.data)).sum

/-- `calculate_experience_years` with the dead `2024` fallback and the
`try/except` removed: the end year is always the second extracted year. -/
def calculate_experience_years_direct (experience : List ExpEntry) : Int :=
  experience.foldl (fun total_years exp =>
    match findallFull year4 exp.period.data with
    | years0 :: years1 :: _ => total_years + ((digitsVal years1 : Int) - (digitsVal years0 : Int))
    | _ => total_years) 0

/-! ### Loop-shape lemmas -/

/-- A fold appending one image per element is `map`. -/
theorem foldl_append_singletons {α β : Type} (g : α → β) :
    ∀ (l : List α) (acc : List β),
      l.foldl (fun a x => a ++ [g x]) acc = acc ++ l.map g := by
  intro l
  induction l with
  | nil => intro acc; simp
  | cons x xs ih => intro acc; simp [List.foldl_cons, ih]

/-- A fold appending a chunk per element is `flatMap`. -/
theorem foldl_append_chunks {α β : Type} (f : α → List β) :
    ∀ (l : List α) (acc : List β),
      l.foldl (fun a x => a ++ f x) acc = acc ++ l.flatMap f := by
  intro l
  induction l with
  | nil => intro acc; simp
  | cons x xs ih => intro acc; simp [List.foldl_cons, ih]

/-- A guarded appending fold is `filter` then `map`. -/
theorem foldl_filter_append {α β : Type} (p : α → Bool) (g : α → β) :
    ∀ (l : List α) (acc : List β),
      l.foldl (fun a x => if p x then a ++ [g x] else a) acc
        = acc ++ (l.filter p).map g := by
  intro l
  induction l with
  | nil => intro acc; simp
  | cons x xs ih =>
    intro acc
    by_cases hx : p x = true
    · simp [List.foldl_cons, hx, ih]
    · simp [List.foldl_cons, Bool.eq_false_iff.mpr hx, ih, List.filter_cons,
        Bool.eq_false_iff.mpr hx]

/-- The name-scanning loop is `find?` of the spec predicate over the
trimmed lines. -/
theorem nameLoop_eq_find :
    ∀ ls : List (List Char), nameLoop ls = (ls.map pyStrip).find? specNameOk := by
  intro ls
  induction ls with
  | nil => rfl
  | cons l ls ih =>
    simp only [nameLoop, List.map_cons]
    cases hA : (!(pyStrip l).isEmpty && decide ((pyWords (pyStrip l)).length ≤ 4)
        && !((pyStrip l).any Char.isDigit)) with
    | false =>
      rw [List.find?_cons_of_neg]
      · exact ih
      · simp [specNameOk, hA]
    | true =>
      cases hB : (!((pyStrip l).contains '@')
          && !(name_keywords.any (fun k => isSubstr k.data (lowerStr (pyStrip l))))) with
      | false =>
        rw [List.find?_cons_of_neg]
        · simp [hA, hB, ih]
        · show ¬specNameOk (pyStrip l) = true
          unfold specNameOk
          rw [hA, hB]
          exact Bool.false_ne_true
      | true =>
        rw [List.find?_cons_of_pos]
        · simp [hA, hB]
        · show specNameOk (pyStrip l) = true
          unfold specNameOk
          rw [hA, hB]
          rfl

/-! ### Facts about `\d{4}` extraction -/

/-- A successful fuelled scan returns a position where the pattern matches. -/
theorem reSearchAux_some (re : RE) (s : List Char) :
    ∀ (fuel i st en : Nat) (g : Caps),
      reSearchAux re s fuel i = some (st, en, g) → matchAt re s st = some (en, g) := by
  intro fuel
  induction fuel with
  | zero =>
    intro i st en g h
    simp [reSearchAux] at h
  | succ n ih =>
    intro i st en g h
    rw [reSearchAux] at h
    cases hm : matchAt re s i with
    | some r =>
      rw [hm] at h
      obtain ⟨e, gg⟩ := r
      simp at h
      obtain ⟨h1, h2, h3⟩ := h
      subst h1; subst h2; subst h3
      exact hm
    | none =>
      rw [hm] at h
      by_cases hlen : s.length ≤ i
      · rw [if_pos hlen] at h
        exact absurd h (by simp)
      · rw [if_neg hlen] at h
        exact ih _ _ _ _ h

/-- Every triple produced by the fuelled `findall` loop is a match. -/
theorem mem_reFindallAux (re : RE) (s : List Char) :
    ∀ (fuel i : Nat) (r : Nat × Nat × Caps),
      r ∈ reFindallAux re s fuel i → matchAt re s r.1 = some (r.2.1, r.2.2) := by
  intro fuel
  induction fuel with
  | zero =>
    intro i r h
    simp [reFindallAux] at h
  | succ n ih =>
    intro i r h
    rw [reFindallAux] at h
    cases hs : reSearchAux re s (s.length + 1 - i) i with
    | none => rw [hs] at h; simp at h
    | some t =>
      obtain ⟨st, en, g⟩ := t
      rw [hs] at h
      rcases List.mem_cons.mp h with h1 | h1
      · subst h1
        exact reSearchAux_some re s _ _ _ _ _ hs
      · exact ih _ _ h1

/-- A match of `\d{4}` at `i` ends at `i + 4` and requires at least four
digit characters from `i`. -/
theorem matchAt_year4 (s : List Char) (i e : Nat) (g : Caps)
    (h : matchAt year4 s i = some (e, g)) :
    e = i + 4 ∧ 4 ≤ ((s.drop i).takeWhile Char.isDigit).length := by
  by_cases h4 : 4 ≤ ((s.drop i).takeWhile Char.isDigit).length
  · refine ⟨?_, h4⟩
    have hre : repEnds s Char.isDigit 4 (some 4) i = [i + 4] := by
      simp only [repEnds]
      rw [Nat.min_eq_right h4]
      simp
      rfl
    have hm : matchAt year4 s i = some (i + 4, []) := by
      unfold matchAt year4
      show ((repEnds s Char.isDigit 4 (some 4) i).map (fun j => (j, ([] : Caps)))).head? = _
      rw [hre]
      rfl
    rw [hm] at h
    simp at h
    exact h.1.symm
  · exfalso
    have hmax : min ((s.drop i).takeWhile Char.isDigit).length 4
        = ((s.drop i).takeWhile Char.isDigit).length :=
      Nat.min_eq_left (Nat.le_of_lt (Nat.lt_of_not_le h4))
    have hre : repEnds s Char.isDigit 4 (some 4) i = [] := by
      simp only [repEnds]
      rw [hmax, if_pos (Nat.lt_of_not_le h4)]
    have hm : matchAt year4 s i = none := by
      unfold matchAt year4
      show ((repEnds s Char.isDigit 4 (some 4) i).map (fun j => (j, ([] : Caps)))).head? = _
      rw [hre]
      rfl
    rw [hm] at h
    exact absurd h (by simp)

/-- The slice of a `\d{4}` match has four characters, all digits. -/
theorem sliceList_year4 (s : List Char) (i : Nat)
    (h4 : 4 ≤ ((s.drop i).takeWhile Char.isDigit).length) :
    (sliceList s i (i + 4)).length = 4 ∧ (sliceList s i (i + 4)).all Char.isDigit = true := by
  have h1 : sliceList s i (i + 4) = (s.drop i).take 4 := by
    unfold sliceList
    rw [List.drop_take]
    congr 1
    omega
  have h2 : (s.drop i).take 4 = ((s.drop i).takeWhile Char.isDigit).take 4 := by
    conv_lhs => rw [← List.takeWhile_append_dropWhile Char.isDigit (s.drop i)]
    rw [List.take_append_of_le_length h4]
  constructor
  · rw [h1, h2, List.length_take, Nat.min_eq_left h4]
  · rw [h1, h2, List.all_eq_true]
    intro x hx
    exact List.mem_takeWhile_imp (List.mem_of_mem_take hx)

/-- Every string returned by `re.findall(r'\d{4}', ·)` has exactly four
characters, all digits. -/
theorem findallFull_year4_digits (s : List Char) :
    ∀ y ∈ findallFull year4 s, y.length = 4 ∧ y.all Char.isDigit = true := by
  intro y hy
  unfold findallFull at hy
  rw [List.mem_map] at hy
  obtain ⟨r, hr, rfl⟩ := hy
  obtain ⟨st, en, g⟩ := r
  have hm := mem_reFindallAux year4 s _ _ _ hr
  obtain ⟨he, hlen⟩ := matchAt_year4 s st en g hm
  subst he
  exact sliceList_year4 s st hlen

/-! ### Digit strings parse cleanly -/

/-- A digit character is not Python whitespace. -/
theorem isDigit_not_space {c : Char} (h : c.isDigit = true) : isSpaceChar c = false := by
  cases hsp : isSpaceChar c with
  | false => rfl
  | true =>
    exfalso
    simp only [isSpaceChar, Bool.or_eq_true, decide_eq_true_eq] at hsp
    rcases hsp with ((((h1 | h1) | h1) | h1) | h1) | h1 <;> subst h1 <;>
      exact absurd h (by decide)

/-- `dropWhile` is the identity when no element satisfies the predicate. -/
theorem dropWhile_of_none {p : Char → Bool} :
    ∀ {l : List Char}, (∀ c ∈ l, p c = false) → l.dropWhile p = l := by
  intro l h
  cases l with
  | nil => rfl
  | cons a t =>
    rw [List.dropWhile_cons, h a (List.mem_cons_self a t)]
    simp

/-- Stripping an all-digit string changes nothing. -/
theorem pyStrip_all_digits {y : List Char} (hd : y.all Char.isDigit = true) :
    pyStrip y = y := by
  have hns : ∀ c ∈ y, isSpaceChar c = false := by
    intro c hc
    exact isDigit_not_space (List.all_eq_true.mp hd c hc)
  unfold pyStrip
  rw [dropWhile_of_none hns, dropWhile_of_none (by intro c hc; exact hns c (List.mem_reverse.mp hc)),
    List.reverse_reverse]

/-- Python `int()` succeeds on a nonempty all-digit string. -/
theorem pyIntOfStr_digits {y : List Char} (hne : y ≠ []) (hd : y.all Char.isDigit = true) :
    pyIntOfStr y = some ((digitsVal y : Nat) : Int) := by
  cases y with
  | nil => exact absurd rfl hne
  | cons c rest =>
    have hc : c.isDigit = true := (List.all_eq_true.mp hd c (List.mem_cons_self c rest))
    have hplus : ¬c = '+' := by intro h1; subst h1; exact absurd hc (by decide)
    have hminus : ¬c = '-' := by intro h1; subst h1; exact absurd hc (by decide)
    simp [pyIntOfStr, pyStrip_all_digits hd, hplus, hminus, digitsValOpt, hd]

/-- Python `str.isdigit()` holds on a nonempty all-digit string. -/
theorem pyIsdigitStr_digits {y : List Char} (hne : y ≠ []) (hd : y.all Char.isDigit = true) :
    pyIsdigitStr y = true := by
  unfold pyIsdigitStr
  rw [hd]
  simp [hne]

/-! ### The aggregator equals its specification sum -/

/-- A fold whose body adds a per-element amount is the sum of images. -/
theorem foldl_body_sum {α : Type} (body : Int → α → Int) (f : α → Int)
    (hb : ∀ t a, body t a = t + f a) :
    ∀ (l : List α) (t : Int), l.foldl body t = t + (l.map f).sum := by
  intro l
  induction l with
  | nil => intro t; simp
  | cons a l ih =>
    intro t
    rw [List.foldl_cons, hb, ih]
    simp [add_assoc]

/-- The body of `calculate_experience_years` adds exactly the spec-side
contribution: the 2024 fallback and the `except` path never fire. -/
theorem calc_body_eq (t : Int) (e : ExpEntry) :
    (match findallFull year4 e.period.data with
     | years0 :: years1 :: _ =>
       match pyIntOfStr years0,
             (if pyIsdigitStr years1 then pyIntOfStr years1 else some 2024) with
       | some start_year, some end_year => t + (end_year - start_year)
       | _, _ => t
     | _ => t) = t + spec_entry_contribution e.period.data := by
  cases hf : findallFull year4 e.period.data with
  | nil => simp [spec_entry_contribution, hf]
  | cons y0 tl =>
    cases tl with
    | nil => simp [spec_entry_contribution, hf]
    | cons y1 tl2 =>
      have h0 := findallFull_year4_digits _ y0 (by rw [hf]; exact List.mem_cons_self ..)
      have h1 := findallFull_year4_digits _ y1
        (by rw [hf]; exact List.mem_cons_of_mem _ (List.mem_cons_self ..))
      have h0ne : y0 ≠ [] := by intro hh; rw [hh] at h0; simp at h0
      have h1ne : y1 ≠ [] := by intro hh; rw [hh] at h1; simp at h1
      have e0 := pyIntOfStr_digits h0ne h0.2
      have e1 := pyIntOfStr_digits h1ne h1.2
      have e2 := pyIsdigitStr_digits h1ne h1.2
      simp [spec_entry_contribution, hf, e0, e1, e2]

/-- `calculate_experience_years` computes the spec-side sum. -/
theorem calculate_eq_spec_sum :
    ∀ exps, calculate_experience_years exps = spec_experience_years exps := by
  intro exps
  unfold calculate_experience_years spec_experience_years
  rw [foldl_body_sum _ (fun e => spec_entry_contribution e.period.data) calc_body_eq]
  simp

/-- The fallback-free variant also computes the spec-side sum. -/
theorem calculate_direct_eq_spec_sum :
    ∀ exps, calculate_experience_years_direct exps = spec_experience_years exps := by
  intro exps
  unfold calculate_experience_years_direct spec_experience_years
  rw [foldl_body_sum _ (fun e => spec_entry_contribution e.period.data)]
  · simp
  · intro t e
    cases hf : findallFull year4 e.period.data with
    | nil => simp [spec_entry_contribution, hf]
    | cons y0 tl =>
      cases tl with
      | nil => simp [spec_entry_contribution, hf]
      | cons y1 tl2 => simp [spec_entry_contribution, hf]

/-- Bool-valued order test on an entry's extracted years (used to state
when the aggregate is non-negative). -/
def period_ordered (period : List Char) : Bool :=
  match findallFull year4 period with
  | y0 :: y1 :: _ => decide (digitsVal y0 ≤ digitsVal y1)
  | _ => true

/-! ### The extractor loops equal their spec shapes -/

/-- The experience loop is the ordered `flatMap` of matches. -/
theorem extract_experience_eq_spec (tok : String → List String) (text : String) :
    extract_experience tok text = spec_experience (tok text) := by
  unfold extract_experience spec_experience
  simp only [foldl_append_singletons, foldl_append_chunks]
  simp

/-- The education loop is `filter` then `map` over the sentences. -/
theorem extract_education_eq_spec (tok : String → List String) (text : String) :
    extract_education tok text = spec_education (tok text) := by
  unfold extract_education spec_education
  have h := foldl_filter_append
    (fun sentence => education_keywords.any (fun k => isSubstr k.data (lowerStr sentence.data)))
    (fun sentence => ({ description := String.mk (pyStrip sentence.data) } : EduEntry))
    (tok text) []
  rw [List.nil_append] at h
  exact h

/-- The skills loop is a `filter` of the vocabulary, then dedup. -/
theorem extract_skills_eq_filter (text : String) :
    extract_skills text
      = (tech_skills.filter
          (fun skill => isSubstr (lowerStr skill.data) (lowerStr text.data))).dedup := by
  unfold extract_skills
  have h := foldl_filter_append
    (fun skill => isSubstr (lowerStr skill.data) (lowerStr text.data))
    (fun skill : String => skill)
    tech_skills []
  rw [List.nil_append] at h
  rw [show (List.map (fun skill : String => skill)
      (List.filter (fun skill => isSubstr (lowerStr skill.data) (lowerStr text.data)) tech_skills))
    = List.filter (fun skill => isSubstr (lowerStr skill.data) (lowerStr text.data)) tech_skills
    from List.map_id _] at h
  exact congrArg List.dedup h

/-! ### Claims -/

/-- C1: the claim says `calculate_experience_years` substitutes the fixed
fallback year 2024 for the open-ended marker in `"2020 - present"` and
returns 4. In the code, `re.findall(r'\d{4}', ...)` extracts only
`["2020"]` from that period, the `len >= 2` branch is skipped, and the
entry contributes 0: the function returns 0, not 4. -/
theorem claim_C1 :
    (findallFull year4 ("2020 - present").data).map String.mk = ["2020"]
    ∧ calculate_experience_years
        [{ period := "2020 - present", description := "Engineer" }] = 0 :=
  ⟨by decide, by decide⟩

/-- C2 counterexample: the aggregate is negative for an out-of-order
period, so it is not non-negative for every entry list. -/
theorem claim_C2_counterexample :
    calculate_experience_years
      [{ period := "2022 - 2018", description := "Data analyst" }] < 0 := by
  decide

/-- C2 (amended): `calculate_experience_years` returns a non-negative
integer provided each entry's first extracted 4-digit year is at most its
second; without that order assumption the result can be negative. -/
theorem claim_C2 (exps : List ExpEntry)
    (h : ∀ e ∈ exps, period_ordered e.period.data = true) :
    0 ≤ calculate_experience_years exps := by
  rw [calculate_eq_spec_sum]
  unfold spec_experience_years
  apply List.sum_nonneg
  intro x hx
  rw [List.mem_map] at hx
  obtain ⟨e, he, rfl⟩ := hx
  have hp := h e he
  unfold period_ordered at hp
  unfold spec_entry_contribution
  cases hf : findallFull year4 e.period.data with
  | nil => simp
  | cons y0 tl =>
    cases tl with
    | nil => simp
    | cons y1 tl2 =>
      rw [hf] at hp
      simp at hp
      simp
      omega

/-- Witness for C2 at a concrete ordered input. -/
theorem claim_C2_witness :
    (∀ e ∈ [({ period := "2018 - 2022", description := "Engineer" } : ExpEntry)],
        period_ordered e.period.data = true)
    ∧ 0 ≤ calculate_experience_years
        [{ period := "2018 - 2022", description := "Engineer" }] :=
  ⟨by decide, claim_C2 _ (by decide)⟩

/-- C3: the aggregate is the sum over entries of second-minus-first
extracted 4-digit year (entries with fewer than two years contribute 0);
in particular a single `"2018 - 2022"` entry gives 4. -/
theorem claim_C3 :
    (∀ exps, calculate_experience_years exps = spec_experience_years exps)
    ∧ calculate_experience_years
        [{ period := "2018 - 2022", description := "Engineer" }] = 4 :=
  ⟨calculate_eq_spec_sum, by decide⟩

/-- C4: for every tokenizer and every input text, `parse_resume` is total
and returns a record carrying all five fields, each the value of the
corresponding extractor (missing data being `none` / `[]` inside those). -/
theorem claim_C4 (tok : String → List String) (text : String) :
    ∃ r : ParsedResume, parse_resume tok text = r
      ∧ r.contact_info = extract_contact_info text
      ∧ r.skills = extract_skills text
      ∧ r.experience = extract_experience tok text
      ∧ r.education = extract_education tok text
      ∧ r.experience_years = calculate_experience_years (extract_experience tok text) :=
  ⟨parse_resume tok text, rfl, rfl, rfl, rfl, rfl, rfl⟩

/-- C5: the extracted name is the first of the first five trimmed lines
that is non-empty, has at most 4 words, no digit, no `@`, and no
case-insensitive "resume"/"cv"/"curriculum" substring; else null. -/
theorem claim_C5 (text : String) :
    (extract_contact_info text).name = spec_name text := by
  show (nameLoop ((splitNl text.data).take 5)).map String.mk = _
  rw [nameLoop_eq_find]
  rfl

/-- C6: the contact email/phone are the first match of the respective
regex (null when unmatched); in particular the text
`"Contact: jane.doe@example.com for info"` yields that email, a text
without an email yields null, and the spec's phone example matches. -/
theorem claim_C6 (text : String) :
    (extract_contact_info text).email = (reSearch email_pattern text.data).map String.mk
    ∧ (extract_contact_info text).phone = (reSearch phone_pattern text.data).map String.mk
    ∧ (extract_contact_info "Contact: jane.doe@example.com for info").email
        = some "jane.doe@example.com"
    ∧ (extract_contact_info "nothing to see here").email = none
    ∧ (extract_contact_info "Call me at (415) 555-2671 anytime").phone
        = some "(415) 555-2671" :=
  ⟨rfl, rfl, by decide, by decide, by decide⟩

/-- C7: the skills list has no duplicates and contains a vocabulary entry
iff it occurs case-insensitively in the text; a text mentioning "Python"
and "python" yields `"python"` exactly once. -/
theorem claim_C7 (text : String) :
    (extract_skills text).Nodup
    ∧ (∀ s : String, s ∈ extract_skills text
        ↔ s ∈ tech_skills ∧ isSubstr (lowerStr s.data) (lowerStr text.data) = true)
    ∧ (extract_skills "Skills: Python and python scripting").count "python" = 1 := by
  refine ⟨?_, ?_, by decide⟩
  · rw [extract_skills_eq_filter]
    exact List.nodup_dedup _
  · intro s
    rw [extract_skills_eq_filter, List.mem_dedup, List.mem_filter]

/-- C8: the experience extractor emits one `{period: "<g1> - <g2>",
description: trimmed sentence}` entry per date-range match, sentences in
source order, the year-year pattern's matches before the month/year
pattern's within a sentence; a sentence with several ranges gives several
entries sharing one description. -/
theorem claim_C8 (tok : String → List String) (text : String) :
    extract_experience tok text = spec_experience (tok text)
    ∧ extract_experience (fun t => [t]) "Worked from 2018 - 2020 and 2021 - 2023 at Acme."
        = [{ period := "2018 - 2020",
             description := "Worked from 2018 - 2020 and 2021 - 2023 at Acme." },
           { period := "2021 - 2023",
             description := "Worked from 2018 - 2020 and 2021 - 2023 at Acme." }] :=
  ⟨extract_experience_eq_spec tok text, by decide⟩

/-- C9: the education extractor returns exactly one trimmed-sentence entry
per sentence containing an education keyword (case-insensitive), in
source order; multiple keywords in one sentence still give one entry. -/
theorem claim_C9 (tok : String → List String) (text : String) :
    extract_education tok text = spec_education (tok text)
    ∧ extract_education (fun t => [t])
        "Bachelor of Science in Computer Science, State University"
        = [{ description := "Bachelor of Science in Computer Science, State University" }] :=
  ⟨extract_education_eq_spec tok text, by decide⟩

/-- C10: the `2024` fallback branch of `calculate_experience_years` is
unreachable: every string extracted by `re.findall(r'\d{4}', ·)` is all
digits, so the function agrees everywhere with the fallback-free
variant. -/
theorem claim_C10 :
    (∀ s : List Char, ∀ y ∈ findallFull year4 s, y.all Char.isDigit = true)
    ∧ (∀ exps, calculate_experience_years exps = calculate_experience_years_direct exps) :=
  ⟨fun s y hy => (findallFull_year4_digits s y hy).2,
   fun exps => (calculate_eq_spec_sum exps).trans (calculate_direct_eq_spec_sum exps).symm⟩

/-- Witness for C10 at a concrete extracted year and a concrete entry
list. -/
theorem claim_C10_witness :
    ("2018".data.all Char.isDigit = true)
    ∧ (calculate_experience_years [{ period := "2016 - 2019", description := "Dev" }]
        = calculate_experience_years_direct
            [{ period := "2016 - 2019", description := "Dev" }]) :=
  ⟨claim_C10.1 ("2018 - 2022").data "2018".data (by decide), claim_C10.2 _⟩
